import Mathlib

/-!
Verification development for the PCB field-mapping and dictionary-resolution
engine (`app/bitrix24.py`, `app/bitrix24_dictionaries.py`,
`app/db_dictionaries.py`).

Python strings are modelled as `List Char` (ASCII-level model: `str.lower`
lower-cases A-Z; `str.strip` strips the ASCII whitespace characters;
`str.isdigit` accepts the characters 0-9).  Python floats that arise here come
from decimal tokens such as "1.6"; they are modelled as exact rationals, which
agrees with IEEE doubles on every comparison performed by the code for tokens
of the magnitudes involved.  The model of Python `float(...)` covers the
decimal forms (optional sign, digits, at most one dot) and reports failure on
everything else, matching the behaviour on every token the code can pass to
it except exotic forms (exponents, inf/nan) that no claim involves.
Exceptions are modelled by `Option`/`Except`: a `try`-block whose body can
raise becomes a function returning `Option`, and an uncaught exception becomes
an `Except.error` propagated to the caller.
-/

namespace PCB

/-- Characters stripped by Python `str.strip()` (ASCII model). -/
def pySpace (c : Char) : Bool :=
  c = ' ' ∨ c = '\t' ∨ c = '\n' ∨ c = '\x0d' ∨ c = '\x0b' ∨ c = '\x0c'

/-- Python `str.strip()`: drop leading and trailing whitespace. -/
def pyStrip (l : List Char) : List Char :=
  ((l.dropWhile pySpace).reverse.dropWhile pySpace).reverse

/-- Python `str.lower()` (ASCII model, as in `Char.toLower`). -/
def pyLower (l : List Char) : List Char :=
  l.map Char.toLower

/-- Shorthand for writing Python string literals as `List Char`. -/
def strN (s : String) : List Char :=
  s.data

/-- Maximal runs of characters satisfying `p`, in order: the helper returns
the run at the head of the list (possibly empty) and the later runs. -/
def runsPAux (p : Char → Bool) : List Char → List Char × List (List Char)
  | [] => ([], [])
  | c :: cs =>
    let r := runsPAux p cs
    if p c then (c :: r.1, r.2)
    else ([], if r.1 = [] then r.2 else r.1 :: r.2)

/-- Maximal nonempty runs of characters satisfying `p`, in order.
With `p = fun c => ¬ pySpace c` this is Python `str.split()`;
with `p = Char.isDigit` this is Python `re.findall(r"\d+", s)`. -/
def runsP (p : Char → Bool) (l : List Char) : List (List Char) :=
  let r := runsPAux p l
  if r.1 = [] then r.2 else r.1 :: r.2

/-- Python `str.split()` (split on whitespace runs, dropping empties). -/
def pySplit (l : List Char) : List (List Char) :=
  runsP (fun c => ¬ pySpace c) l

/-- Python substring test `a in b` (contiguous substring; `"" in b` is true). -/
def isSubstring (a : List Char) : List Char → Bool
  | [] => a.isEmpty
  | c :: bs => a.isPrefixOf (c :: bs) || isSubstring a bs

/-- Non-empty intersection of two word sets (`set(a) & set(b)` being truthy). -/
def sharesAny (a b : List (List Char)) : Bool :=
  a.any (fun w => b.any (fun w' => w' = w))

/-!  ## `normalize_text` (`bitrix24_dictionaries.py` / `db_dictionaries.py`)

    if not text: return ""
    return text.strip().lower().replace("-", "").replace("_", "").replace(" ", "")
-/

def normalize_text (t : List Char) : List Char :=
  if t.isEmpty then []
  else (((pyLower (pyStrip t)).filter (fun c => ¬ c = '-')).filter
      (fun c => ¬ c = '_')).filter (fun c => ¬ c = ' ')

/-!  ## Static dictionaries (`bitrix24_dictionaries.py`) -/

def MATERIALS_DICT : List (List Char × Int) :=
  [(strN "FR4", 6281), (strN "FR-4", 6281)]

def FINISH_TYPE_DICT : List (List Char × Int) :=
  [(strN "HASL", 7010), (strN "HASL Lead-Free", 7010),
   (strN "ENIG", 5256), (strN "OSP", 6610)]

def LAYERS_DICT : List (List Char × Int) :=
  [(strN "1", 6014), (strN "2", 6014), (strN "4", 6014),
   (strN "6", 6014), (strN "8", 6014)]

def COPPER_THICKNESS_DICT : List (List Char × Int) :=
  [(strN "0.5 OZ", 6002), (strN "0.5", 6002), (strN "1 OZ", 6002),
   (strN "1", 6002), (strN "1.5 OZ", 6002), (strN "1.5", 6002),
   (strN "2 OZ", 6002), (strN "2", 6002)]

def ORDER_UNIT_DICT : List (List Char × Int) :=
  [(strN "шт", 5256), (strN "piece", 5256), (strN "pcs", 5256)]

def PCB_TYPE_DICT : List (List Char × Int) :=
  [(strN "Rigid", 5804), (strN "Flex", 5804), (strN "Rigid-Flex", 5804)]

def PEELABLE_SM_DICT : List (List Char × Int) :=
  [(strN "Yes", 6270), (strN "No", 6270)]

def PRODUCTION_UNIT_DICT : List (List Char × Int) := []

def SOLDER_MASK_COLOR_DICT : List (List Char × Int) :=
  [(strN "Green", 8002), (strN "Red", 8002), (strN "Blue", 8002),
   (strN "Black", 8002), (strN "White", 8002)]

def SILKSCREEN_COLOR_DICT : List (List Char × Int) :=
  [(strN "Green", 7002), (strN "White", 7002), (strN "Black", 7002)]

def EDGE_PLATING_DICT : List (List Char × Int) :=
  [(strN "Yes", 5860), (strN "No", 5860)]

/-- All the static dictionaries (definition order of the module). -/
def ALL_STATIC_DICTS : List (List (List Char × Int)) :=
  [MATERIALS_DICT, FINISH_TYPE_DICT, LAYERS_DICT, COPPER_THICKNESS_DICT,
   ORDER_UNIT_DICT, PCB_TYPE_DICT, PEELABLE_SM_DICT, PRODUCTION_UNIT_DICT,
   SOLDER_MASK_COLOR_DICT, SILKSCREEN_COLOR_DICT, EDGE_PLATING_DICT]

/-!  ## `find_item_id` (static resolver, `bitrix24_dictionaries.py` 143-182) -/

/-- The exact pass: first entry whose normalized key equals the normalized
input. -/
def exactPass (ni : List Char) : List (List Char × Int) → Option Int
  | [] => none
  | (k, i) :: ds => if normalize_text k = ni then some i else exactPass ni ds

/-- One iteration of the fuzzy loop: substring containment in either
direction (on `lower().strip()` forms), else shared whitespace words. -/
def fuzzyTest (u : List Char) (kl : List Char) : Bool :=
  (isSubstring kl u || isSubstring u kl) ||
    sharesAny (pySplit u) (pySplit kl)

/-- The fuzzy pass over the dictionary, input already lowered and stripped. -/
def fuzzyPass (u : List Char) : List (List Char × Int) → Option Int
  | [] => none
  | (k, i) :: ds =>
    if fuzzyTest u (pyStrip (pyLower k)) then some i else fuzzyPass u ds

/-- `find_item_id(text_value, dictionary, fuzzy_match)`. -/
def find_item_id (t : List Char) (d : List (List Char × Int))
    (fuzzy : Bool) : Option Int :=
  if t.isEmpty then none
  else
    match exactPass (normalize_text t) d with
    | some i => some i
    | none =>
      if fuzzy then fuzzyPass (pyStrip (pyLower t)) d else none

/-!  ## `get_layers_id` (`bitrix24_dictionaries.py` 201-212), static path

    numbers = re.findall(r"\d+", str(layers_text))
    if numbers: return find_item_id(numbers[0], LAYERS_DICT)
    return find_item_id(layers_text, LAYERS_DICT)
-/

def get_layers_id_static (s : List Char) : Option Int :=
  match runsP Char.isDigit s with
  | n :: _ => find_item_id n LAYERS_DICT true
  | [] => find_item_id s LAYERS_DICT true

/-!  ## Dimension parsing (`bitrix24.py` 148-161 and 220-242) -/

/-- A Python float arising from a decimal token, modelled as an exact
fraction with a positive power-of-ten denominator (not normalized: the
program only constructs these values and compares them against bounds, so
equal representations arise exactly from equal token digits).  For the
token magnitudes this program handles, IEEE doubles and exact decimals
agree on every comparison the code performs. -/
structure PyF where
  num : Int
  den : Nat
deriving DecidableEq

instance (n : Nat) : OfNat PyF n :=
  ⟨⟨n, 1⟩⟩

/-- Value comparison `a ≤ b` (denominators are positive). -/
def leF (a b : PyF) : Bool :=
  a.num * b.den ≤ b.num * a.den

/-- Negation, for a leading "-" sign in a float token. -/
def negF (a : PyF) : PyF :=
  ⟨-a.num, a.den⟩

/-- Digit list to the natural number it denotes. -/
def digitsToNat (l : List Char) : Nat :=
  l.foldl (fun a c => 10 * a + (c.toNat - 48)) 0

/-- Decimal value of a token made of digits and at most one dot:
`ip.fp` denotes `digits(ip ++ fp) / 10 ^ |fp|`. -/
def parseDec (l : List Char) : PyF :=
  let ip := l.takeWhile (fun c => ¬ c = '.')
  let fp := (l.dropWhile (fun c => ¬ c = '.')).drop 1
  ⟨digitsToNat (ip ++ fp), 10 ^ fp.length⟩

/-- Python `float(token)` on sign/digit/dot forms: `none` models the
`ValueError` raised on anything else (e.g. a second decimal point). -/
def pyFloat (t : List Char) : Option PyF :=
  let body : List Char :=
    if t.head? = some '-' ∨ t.head? = some '+' then t.tail else t
  if (body.count '.') ≤ 1 ∧ (body.all fun c => c.isDigit || c = '.') ∧
      ¬ (body.filter (fun c => ¬ c = '.')) = []
  then some (if t.head? = some '-' then negF (parseDec body) else parseDec body)
  else none

/-- `s.replace("x", " ").replace("X", " ").replace("×", " ")`. -/
def dimReplace (s : List Char) : List Char :=
  s.map (fun c => if c = 'x' ∨ c = 'X' ∨ c = '×' then ' ' else c)

/-- `s.replace("x", " ").replace("X", " ")` (the thickness pre-pass does not
replace the multiplication sign). -/
def xxReplace (s : List Char) : List Char :=
  s.map (fun c => if c = 'x' ∨ c = 'X' then ' ' else c)

/-- The token filter `p.replace(".", "").isdigit()`. -/
def keptTok (t : List Char) : Bool :=
  let d := t.filter (fun c => ¬ c = '.')
  ¬ d = [] ∧ d.all Char.isDigit

/-- `[float(p) for p in size_str.split() if p.replace(".", "").isdigit()]`
inside `try`: a `float` failure on a kept token aborts the whole
comprehension, which the surrounding `except` turns into no parts at all. -/
def parse_dimensions (s : List Char) : List PyF :=
  match ((pySplit (dimReplace s)).filter keptTok).mapM pyFloat with
  | some l => l
  | none => []

/-- The thickness pre-pass loop (`bitrix24.py` 150-160): first token
containing a dot whose float value lies in [0.1, 10] wins (`break`); a
`float` failure aborts the loop (`except: pass`), keeping the default. -/
def prepassLoop : List (List Char) → PyF → PyF
  | [], acc => acc
  | p :: ps, acc =>
    if p.contains '.' then
      match pyFloat p with
      | none => acc
      | some th => if leF ⟨1, 10⟩ th && leF th ⟨10, 1⟩ then th else prepassLoop ps acc
    else prepassLoop ps acc

/-!  ## Output field set (`fields` dict in `map_pcb_to_bitrix24_fields`) -/

/-- A value stored in the output field dict: a string, a float, or a
dictionary item id. -/
inductive BVal where
  | s (v : List Char)
  | q (v : PyF)
  | i (v : Int)
deriving DecidableEq

/-- The output dict, as an insertion-ordered association list. -/
def Fields := List (String × BVal)

instance : DecidableEq Fields := by
  unfold Fields
  infer_instance

/-- `fields[k] = v`: overwrite in place, else append (Python dict update). -/
def setF : Fields → String → BVal → Fields
  | [], k, v => [(k, v)]
  | (k', v') :: fs, k, v =>
    if k' = k then (k, v) :: fs else (k', v') :: setF fs k v

/-- `fields.get(k)`. -/
def lookupF : Fields → String → Option BVal
  | [], _ => none
  | (k', v) :: fs, k => if k' = k then some v else lookupF fs k

def nameKey : String := "ufCrm24_1709799376061"
def descKey : String := "ufCrm24_1709799393816"
def revKey : String := "ufCrm24_1709799420584"
def thickKey : String := "ufCrm24_1708374728464"
def matKey : String := "ufCrm24_1707838248"
def layersKey : String := "ufCrm24_1709815185"
def finishKey : String := "ufCrm24_1707768819"
def copperKey : String := "ufCrm24_1707838441"
def lenKey : String := "ufCrm24_1708353384301"
def widKey : String := "ufCrm24_1708353402068"
def panelLenKey : String := "ufCrm24_1708375852081"
def panelWidKey : String := "ufCrm24_1708375871512"
def edgeKey : String := "ufCrm24_1707839110"

/-!  ## The field mapper (`map_pcb_to_bitrix24_fields`, `bitrix24.py`) -/

/-- The characteristics record (`PCBCharacteristics.model_dump()` view);
every attribute is optional, `none` modelling an absent/None value. -/
structure PCBData where
  board_name : Option (List Char)
  base_material : Option (List Char)
  layer_count : Option (List Char)
  coverage_type : Option (List Char)
  foil_thickness : Option (List Char)
  board_size : Option (List Char)
  panelization : Option (List Char)
  solder_mask_colour : Option (List Char)
  edge_plating : Option (List Char)

/-- The record with every attribute absent. -/
def emptyPCB : PCBData :=
  { board_name := none, base_material := none, layer_count := none,
    coverage_type := none, foil_thickness := none, board_size := none,
    panelization := none, solder_mask_colour := none, edge_plating := none }

/-- The dictionary-resolution functions the mapper calls
(`dicts.get_material_id` and friends). -/
structure Resolvers where
  material : List Char → Option Int
  layers : List Char → Option Int
  finish : List Char → Option Int
  copper : List Char → Option Int
  edge : List Char → Option Int

/-- The resolvers in the static (no-DB) configuration. -/
def staticResolvers : Resolvers :=
  { material := fun t => find_item_id t MATERIALS_DICT true,
    layers := get_layers_id_static,
    finish := fun t => find_item_id t FINISH_TYPE_DICT true,
    copper := fun t => find_item_id t COPPER_THICKNESS_DICT true,
    edge := fun t => find_item_id t EDGE_PLATING_DICT true }

/-- `if pcb_data.get(attr):` — Python truthiness of an optional string. -/
def truthy : Option (List Char) → Bool
  | some s => ¬ s.isEmpty
  | none => false

/-- `if pcb_data.get("board_name"): fields[name] = pcb_data["board_name"]`. -/
def stepName (r : PCBData) (f : Fields) : Fields :=
  match r.board_name with
  | some s => if s.isEmpty then f else setF f nameKey (.s s)
  | none => f

/-- The `description_parts` list (`bitrix24.py` 132-138). -/
def descParts (r : PCBData) : List (List Char) :=
  (match r.base_material with
   | some s => if s.isEmpty then [] else [strN "Material: " ++ s]
   | none => []) ++
  (match r.layer_count with
   | some s => if s.isEmpty then [] else [strN "Layers: " ++ s]
   | none => []) ++
  (match r.coverage_type with
   | some s => if s.isEmpty then [] else [strN "Finish: " ++ s]
   | none => [])

/-- OEM Description: joined parts, or the fixed placeholder "PCB". -/
def stepDesc (r : PCBData) (f : Fields) : Fields :=
  let ps := descParts r
  if ps = [] then setF f descKey (.s (strN "PCB"))
  else setF f descKey (.s (List.intercalate (strN ", ") ps))

/-- The thickness pre-pass value (`board_thickness` before the geometric
parse; default 1.6). -/
def prepass (r : PCBData) : PyF :=
  match r.board_size with
  | some s => if s.isEmpty then ⟨16, 10⟩ else prepassLoop (pySplit (xxReplace s)) ⟨16, 10⟩
  | none => ⟨16, 10⟩

/-- The shared shape of the dictionary-field blocks: when the source
attribute is truthy, resolve it and store the id only when the result is
truthy (`if material_id:` — Python treats both None and 0 as falsy). -/
def condResolve (src : Option (List Char)) (res : List Char → Option Int)
    (k : String) (f : Fields) : Fields :=
  match src with
  | some s =>
    if s.isEmpty then f
    else
      match res s with
      | some i => if i = 0 then f else setF f k (.i i)
      | none => f
  | none => f

/-- A geometric block (`bitrix24.py` 220-231 / 234-242): at least two parsed
numbers set length and width; for the board block a plausible third number
also overwrites the thickness field. -/
def stepGeom (src : Option (List Char)) (kLen kWid : String)
    (thickToo : Bool) (f : Fields) : Fields :=
  match src with
  | some s =>
    if s.isEmpty then f
    else
      let parts := parse_dimensions s
      if 2 ≤ parts.length then
        let f2 := setF (setF f kLen (.q (parts.getD 0 0))) kWid (.q (parts.getD 1 0))
        if thickToo ∧ 3 ≤ parts.length then
          let t := parts.getD 2 0
          if leF ⟨1, 10⟩ t && leF t ⟨10, 1⟩ then setF f2 thickKey (.q t) else f2
        else f2
      else f
  | none => f

/-- `map_pcb_to_bitrix24_fields(pcb_data)`, parametrized by the resolver
backend.  The solder-mask colour is resolved by the code but assigned to no
output field (`bitrix24.py` 247-252), so it leaves the dict unchanged. -/
def map_pcb_to_bitrix24_fields (R : Resolvers) (r : PCBData) : Fields :=
  let f1 := stepName r []
  let f2 := stepDesc r f1
  let f3 := setF f2 revKey (.s [])
  let f4 := setF f3 thickKey (.q (prepass r))
  let f5 := condResolve r.base_material R.material matKey f4
  let f6 := condResolve r.layer_count R.layers layersKey f5
  let f7 := condResolve r.coverage_type R.finish finishKey f6
  let f8 := condResolve r.foil_thickness R.copper copperKey f7
  let f9 := stepGeom r.board_size lenKey widKey true f8
  let f10 := stepGeom r.panelization panelLenKey panelWidKey false f9
  condResolve r.edge_plating R.edge edgeKey f10

/-!  ## DB-backed dictionaries (`db_dictionaries.py`)

The TTL cache `self._cache : dict[(iblock_id, normalized_value), (expires_at,
item_id)]` becomes explicit state; `time.time()` becomes a `now` argument;
the one-round-trip fetch of all rows of a category becomes a `rows`
argument, and the result records whether this call performed that fetch. -/

/-- The in-process cache: key `(iblock_id, normalized_value)`, value
`(expires_at, item_id-or-None)`. -/
structure DbState where
  cache : List ((Int × List Char) × (Int × Option Int))
deriving DecidableEq

def emptyDb : DbState := { cache := [] }

/-- `self._cache.get(key)`. -/
def cacheGet (st : DbState) (k : Int × List Char) : Option (Int × Option Int) :=
  (st.cache.find? (fun e => e.1 = k)).map (fun e => e.2)

/-- `self._cache.pop(key, None)`. -/
def cacheDrop (st : DbState) (k : Int × List Char) : DbState :=
  { cache := st.cache.filter (fun e => ¬ e.1 = k) }

/-- `DbDictionaries._get_cached`: note that it returns the stored `item_id`,
so a cached "not found" (item_id None) is returned as None, which the caller
cannot tell apart from a cache miss. -/
def getCached (st : DbState) (ib : Int) (nv : List Char) (now : Int) :
    Option Int × DbState :=
  match cacheGet st (ib, nv) with
  | none => (none, st)
  | some ei =>
    if ei.1 < now then (none, cacheDrop st (ib, nv))
    else (ei.2, st)

/-- `DbDictionaries._set_cached`. -/
def setCached (st : DbState) (ib : Int) (nv : List Char) (iid : Option Int)
    (now ttl : Int) : DbState :=
  { cache := (cacheDrop st (ib, nv)).cache ++ [((ib, nv), (now + ttl, iid))] }

/-- Exact pass over the fetched rows `(item_id, item)`. -/
def dbExact (nv : List Char) : List (Int × List Char) → Option Int
  | [] => none
  | (iid, item) :: rs =>
    if normalize_text item = nv then some iid else dbExact nv rs

/-- Fuzzy pass over the fetched rows (substring then shared words). -/
def dbFuzzy (u : List Char) : List (Int × List Char) → Option Int
  | [] => none
  | (iid, item) :: rs =>
    let kr := pyStrip (pyLower item)
    if isSubstring kr u || isSubstring u kr then some iid
    else if sharesAny (pySplit u) (pySplit kr) then some iid
    else dbFuzzy u rs

/-- Outcome of one `DbDictionaries.find_item_id` call: result, new cache
state, and whether the call fetched from the database. -/
structure DbResult where
  res : Option Int
  st : DbState
  fetched : Bool
deriving DecidableEq

/-- `DbDictionaries.find_item_id(iblock_id, text_value)` when the fetch
succeeds and returns `rows`. -/
def db_find_item_id (ttl : Int) (rows : List (Int × List Char)) (ib : Int)
    (t : List Char) (now : Int) (st : DbState) : DbResult :=
  let nv := normalize_text t
  if nv = [] then ⟨none, st, false⟩
  else
    let c := getCached st ib nv now
    match c.1 with
    | some i => ⟨some i, c.2, false⟩
    | none =>
      match dbExact nv rows with
      | some i => ⟨some i, setCached c.2 ib nv (some i) now ttl, true⟩
      | none =>
        match dbFuzzy (pyStrip (pyLower t)) rows with
        | some i => ⟨some i, setCached c.2 ib nv (some i) now ttl, true⟩
        | none => ⟨none, setCached c.2 ib nv none now ttl, true⟩

/-- `DbDictionaries.find_item_id` with the fetch outcome explicit: the
method has no handler, so a failing `conn.execute` propagates. -/
def db_find_item_idE (ttl : Int) (fetch : Except String (List (Int × List Char)))
    (ib : Int) (t : List Char) (now : Int) (st : DbState) :
    Except String DbResult :=
  let nv := normalize_text t
  if nv = [] then .ok ⟨none, st, false⟩
  else
    let c := getCached st ib nv now
    match c.1 with
    | some i => .ok ⟨some i, c.2, false⟩
    | none =>
      match fetch with
      | .error e => .error e
      | .ok rows =>
        match dbExact nv rows with
        | some i => .ok ⟨some i, setCached c.2 ib nv (some i) now ttl, true⟩
        | none =>
          match dbFuzzy (pyStrip (pyLower t)) rows with
          | some i => .ok ⟨some i, setCached c.2 ib nv (some i) now ttl, true⟩
          | none => .ok ⟨none, setCached c.2 ib nv none now ttl, true⟩

/-!  ## Backend selection (`bitrix24_dictionaries.py` 22-40 and 185-276) -/

/-- A configured DB backend: its TTL and, per category id, the outcome the
database would return for the one-round-trip fetch of that category. -/
structure DbCtx where
  ttl : Int
  fetch : Int → Except String (List (Int × List Char))

/-- `_try_get_db()`: `None` when `USE_DB_DICTIONARIES` is "0", when
`DICTIONARIES_DB_URL` is unset/blank, or when constructing the backend
raised (the `except ...: return None` arms); otherwise the backend. -/
def try_get_db (useDbEnv dbUrlEnv : Option (List Char)) (setup : Option DbCtx) :
    Option DbCtx :=
  if pyStrip (useDbEnv.getD (strN "1")) = strN "0" then none
  else if pyStrip (dbUrlEnv.getD []) = [] then none
  else setup

/-- The shared shape of every public `get_*_id` entry point: try the DB
backend first, use the module-level static resolution only when there is no
DB backend.  A DB error propagates (no handler in any entry point). -/
def dictEntry (ib : Int) (staticResolve : List Char → Option Int)
    (db : Option DbCtx) (t : List Char) (now : Int) (st : DbState) :
    Except String (Option Int × DbState) :=
  match db with
  | some ctx =>
    match db_find_item_idE ctx.ttl (ctx.fetch ib) ib t now st with
    | .error e => .error e
    | .ok r => .ok (r.res, r.st)
  | none => .ok (staticResolve t, st)

def get_material_id (db : Option DbCtx) (t : List Char) (now : Int)
    (st : DbState) : Except String (Option Int × DbState) :=
  dictEntry 56 (fun x => find_item_id x MATERIALS_DICT true) db t now st

def get_finish_type_id (db : Option DbCtx) (t : List Char) (now : Int)
    (st : DbState) : Except String (Option Int × DbState) :=
  dictEntry 74 (fun x => find_item_id x FINISH_TYPE_DICT true) db t now st

def get_layers_id (db : Option DbCtx) (t : List Char) (now : Int)
    (st : DbState) : Except String (Option Int × DbState) :=
  dictEntry 54 get_layers_id_static db t now st

def get_copper_thickness_id (db : Option DbCtx) (t : List Char) (now : Int)
    (st : DbState) : Except String (Option Int × DbState) :=
  dictEntry 62 (fun x => find_item_id x COPPER_THICKNESS_DICT true) db t now st

def get_order_unit_id (db : Option DbCtx) (t : List Char) (now : Int)
    (st : DbState) : Except String (Option Int × DbState) :=
  dictEntry 50 (fun x => find_item_id x ORDER_UNIT_DICT true) db t now st

def get_pcb_type_id (db : Option DbCtx) (t : List Char) (now : Int)
    (st : DbState) : Except String (Option Int × DbState) :=
  dictEntry 52 (fun x => find_item_id x PCB_TYPE_DICT true) db t now st

def get_peelable_sm_id (db : Option DbCtx) (t : List Char) (now : Int)
    (st : DbState) : Except String (Option Int × DbState) :=
  dictEntry 86 (fun x => find_item_id x PEELABLE_SM_DICT true) db t now st

def get_production_unit_id (db : Option DbCtx) (t : List Char) (now : Int)
    (st : DbState) : Except String (Option Int × DbState) :=
  dictEntry 160 (fun x => find_item_id x PRODUCTION_UNIT_DICT true) db t now st

def get_solder_mask_color_id (db : Option DbCtx) (t : List Char) (now : Int)
    (st : DbState) : Except String (Option Int × DbState) :=
  dictEntry 64 (fun x => find_item_id x SOLDER_MASK_COLOR_DICT true) db t now st

def get_silkscreen_color_id (db : Option DbCtx) (t : List Char) (now : Int)
    (st : DbState) : Except String (Option Int × DbState) :=
  dictEntry 66 (fun x => find_item_id x SILKSCREEN_COLOR_DICT true) db t now st

def get_edge_plating_id (db : Option DbCtx) (t : List Char) (now : Int)
    (st : DbState) : Except String (Option Int × DbState) :=
  dictEntry 72 (fun x => find_item_id x EDGE_PLATING_DICT true) db t now st

/-!  ## Reference definitions written from the spec's words, for the
refinement claims that compare the code against a stated algorithm. -/

/-- The specified normalizer: lower-cased, with all whitespace, hyphens and
underscores removed entirely. -/
def spec_normalize (t : List Char) : List Char :=
  (pyLower t).filter (fun c => ¬ (pySpace c ∨ c = '-' ∨ c = '_'))

/-- The specified layer-count variant: strip all non-digit characters, then
resolve. -/
def spec_layers_resolve (s : List Char) : Option Int :=
  find_item_id (s.filter Char.isDigit) LAYERS_DICT true

/-- The specified token filter: entirely numeric after stripping a single
decimal point. -/
def specDimTok (t : List Char) : Bool :=
  (t.count '.') ≤ 1 ∧ ¬ (t.filter (fun c => ¬ c = '.')) = [] ∧
    (t.filter (fun c => ¬ c = '.')).all Char.isDigit

/-- The specified dimension parser: replace separators, split, keep the
specified tokens, parse each in order; failures only drop tokens. -/
def spec_parse_dimensions (s : List Char) : List PyF :=
  ((pySplit (dimReplace s)).filter specDimTok).map parseDec

/-- Shared-word test between an input and a dictionary key, exactly as the
fuzzy pass computes it (`lower().strip().split()` on both sides). -/
def sharesWords (t k : List Char) : Bool :=
  sharesAny (pySplit (pyStrip (pyLower t))) (pySplit (pyStrip (pyLower k)))

/-!  ## Helper lemmas -/

theorem runsPAux_append_join (p : Char → Bool) (l : List Char) :
    (runsPAux p l).1 ++ ((runsPAux p l).2).flatten = l.filter p := by
  induction l with
  | nil => rfl
  | cons c cs ih =>
    by_cases h : p c
    · simp [runsPAux, h, List.filter_cons, ih]
    · by_cases h1 : (runsPAux p cs).1 = []
      · simp only [runsPAux, h, if_false, List.filter_cons, h1, if_true,
          List.nil_append, Bool.false_eq_true]
        rw [← ih, h1, List.nil_append]
      · simp only [runsPAux, h, if_false, List.filter_cons, h1,
          List.nil_append, Bool.false_eq_true]
        rw [← ih, List.flatten_cons]

theorem runsP_flatten (p : Char → Bool) (l : List Char) :
    ((runsP p l).flatten) = l.filter p := by
  by_cases h1 : (runsPAux p l).1 = []
  · simp only [runsP, h1, if_true]
    rw [← runsPAux_append_join p l, h1, List.nil_append]
  · simp only [runsP, h1, if_false]
    rw [← runsPAux_append_join p l, List.flatten_cons]

theorem exactPass_mem {ni : List Char} {d : List (List Char × Int)} {i : Int}
    (h : exactPass ni d = some i) : ∃ k, (k, i) ∈ d := by
  induction d with
  | nil => exact absurd h (by simp [exactPass])
  | cons kv ds ih =>
    obtain ⟨k, j⟩ := kv
    rw [exactPass] at h
    split at h
    · cases h
      exact ⟨k, List.mem_cons_self _ _⟩
    · obtain ⟨k1, hk⟩ := ih h
      exact ⟨k1, List.mem_cons_of_mem _ hk⟩

theorem fuzzyPass_mem {u : List Char} {d : List (List Char × Int)} {i : Int}
    (h : fuzzyPass u d = some i) : ∃ k, (k, i) ∈ d := by
  induction d with
  | nil => exact absurd h (by simp [fuzzyPass])
  | cons kv ds ih =>
    obtain ⟨k, j⟩ := kv
    rw [fuzzyPass] at h
    split at h
    · cases h
      exact ⟨k, List.mem_cons_self _ _⟩
    · obtain ⟨k1, hk⟩ := ih h
      exact ⟨k1, List.mem_cons_of_mem _ hk⟩

theorem find_item_id_mem {t : List Char} {d : List (List Char × Int)}
    {b : Bool} {i : Int} (h : find_item_id t d b = some i) :
    ∃ k, (k, i) ∈ d := by
  rw [find_item_id] at h
  split at h
  · cases h
  · split at h
    · cases h
      rename_i hex
      exact exactPass_mem hex
    · split at h
      · exact fuzzyPass_mem h
      · cases h

theorem find_item_id_mem_snd {t : List Char} {d : List (List Char × Int)}
    {b : Bool} {i : Int} (h : find_item_id t d b = some i) :
    i ∈ d.map Prod.snd := by
  obtain ⟨k, hk⟩ := find_item_id_mem h
  exact List.mem_map.mpr ⟨(k, i), hk, rfl⟩

theorem fuzzyPass_isSome {u : List Char} {d : List (List Char × Int)}
    (h : ∃ p ∈ d, sharesAny (pySplit u) (pySplit (pyStrip (pyLower p.1))) = true) :
    (fuzzyPass u d).isSome := by
  induction d with
  | nil => simp at h
  | cons kv ds ih =>
    obtain ⟨k, j⟩ := kv
    rw [fuzzyPass]
    split
    · rfl
    · rename_i htest
      obtain ⟨p, hp, hs⟩ := h
      rcases List.mem_cons.mp hp with h1 | h1
      · subst h1
        exact absurd htest (by simp [fuzzyTest, hs])
      · exact ih ⟨p, h1, hs⟩

theorem lookupF_setF_self (f : Fields) (k : String) (v : BVal) :
    lookupF (setF f k v) k = some v := by
  induction f with
  | nil => simp [setF, lookupF]
  | cons p fs ih =>
    obtain ⟨k0, v0⟩ := p
    by_cases h0 : k0 = k
    · simp [setF, h0, lookupF]
    · simp [setF, h0, lookupF, ih]

theorem lookupF_setF_ne (f : Fields) (v : BVal) {k k' : String}
    (h : ¬ k' = k) : lookupF (setF f k v) k' = lookupF f k' := by
  induction f with
  | nil =>
    have h2 : ¬ k = k' := fun hh => h hh.symm
    simp [setF, lookupF, h2]
  | cons p fs ih =>
    obtain ⟨k0, v0⟩ := p
    by_cases h0 : k0 = k
    · subst h0
      have h2 : ¬ k0 = k' := fun hh => h hh.symm
      simp [setF, lookupF, h2]
    · simp [setF, h0, lookupF, ih]

theorem lookupF_setF_isSome {f : Fields} {k k' : String} {v : BVal}
    (h : (lookupF f k').isSome = true) :
    (lookupF (setF f k v) k').isSome = true := by
  by_cases hk : k' = k
  · subst hk
    rw [lookupF_setF_self]
    rfl
  · rw [lookupF_setF_ne f v hk]
    exact h

theorem lookup_stepName_ne {r : PCBData} {f : Fields} {k : String}
    (h : ¬ k = nameKey) : lookupF (stepName r f) k = lookupF f k := by
  cases hb : r.board_name with
  | none => simp [stepName, hb]
  | some s =>
    simp only [stepName, hb]
    split
    · rfl
    · exact lookupF_setF_ne f _ h

theorem lookup_stepName_nil (r : PCBData) :
    (lookupF (stepName r []) nameKey).isSome = truthy r.board_name := by
  cases hb : r.board_name with
  | none => simp [stepName, truthy, hb, lookupF]
  | some s =>
    by_cases h : s.isEmpty
    · simp [stepName, truthy, hb, h, lookupF]
    · simp [stepName, truthy, hb, h, lookupF_setF_self]

theorem lookup_stepDesc_ne {r : PCBData} {f : Fields} {k : String}
    (h : ¬ k = descKey) : lookupF (stepDesc r f) k = lookupF f k := by
  simp only [stepDesc]
  split
  · exact lookupF_setF_ne f _ h
  · exact lookupF_setF_ne f _ h

theorem lookup_stepDesc_self (r : PCBData) (f : Fields) :
    (lookupF (stepDesc r f) descKey).isSome = true := by
  simp only [stepDesc]
  split
  · rw [lookupF_setF_self]
    rfl
  · rw [lookupF_setF_self]
    rfl

theorem lookup_condResolve_ne {src : Option (List Char)}
    {res : List Char → Option Int} {k0 : String} {f : Fields} {k : String}
    (h : ¬ k = k0) : lookupF (condResolve src res k0 f) k = lookupF f k := by
  cases src with
  | none => rfl
  | some s =>
    simp only [condResolve]
    split
    · rfl
    · split
      · split
        · rfl
        · exact lookupF_setF_ne f _ h
      · rfl

theorem lookup_condResolve_isSome {src : Option (List Char)}
    {res : List Char → Option Int} {k0 : String} {f : Fields} {k : String}
    (h : (lookupF f k).isSome = true) :
    (lookupF (condResolve src res k0 f) k).isSome = true := by
  cases src with
  | none => exact h
  | some s =>
    simp only [condResolve]
    split
    · exact h
    · split
      · split
        · exact h
        · exact lookupF_setF_isSome h
      · exact h

theorem lookup_condResolve_self {src : Option (List Char)}
    {res : List Char → Option Int} {k0 : String} {f : Fields} {v : BVal}
    (h : lookupF (condResolve src res k0 f) k0 = some v) :
    (∃ s i, res s = some i ∧ v = BVal.i i) ∨ lookupF f k0 = some v := by
  cases src with
  | none => exact Or.inr h
  | some s =>
    simp only [condResolve] at h
    split at h
    · exact Or.inr h
    · split at h
      · rename_i i heq
        split at h
        · exact Or.inr h
        · rw [lookupF_setF_self] at h
          cases h
          exact Or.inl ⟨s, i, heq, rfl⟩
      · exact Or.inr h

theorem stepGeom_none {kLen kWid : String} {tt : Bool} {f : Fields} :
    stepGeom none kLen kWid tt f = f :=
  rfl

theorem lookup_stepGeom_ne {src : Option (List Char)} {kLen kWid : String}
    {tt : Bool} {f : Fields} {k : String} (h1 : ¬ k = kLen) (h2 : ¬ k = kWid)
    (h3 : ¬ k = thickKey) :
    lookupF (stepGeom src kLen kWid tt f) k = lookupF f k := by
  cases src with
  | none => rfl
  | some s =>
    simp only [stepGeom]
    split
    · rfl
    · split
      · split
        · split
          · rw [lookupF_setF_ne _ _ h3, lookupF_setF_ne _ _ h2,
              lookupF_setF_ne _ _ h1]
          · rw [lookupF_setF_ne _ _ h2, lookupF_setF_ne _ _ h1]
        · rw [lookupF_setF_ne _ _ h2, lookupF_setF_ne _ _ h1]
      · rfl

theorem lookup_stepGeom_isSome {src : Option (List Char)} {kLen kWid : String}
    {tt : Bool} {f : Fields} {k : String}
    (h : (lookupF f k).isSome = true) :
    (lookupF (stepGeom src kLen kWid tt f) k).isSome = true := by
  cases src with
  | none => exact h
  | some s =>
    simp only [stepGeom]
    split
    · exact h
    · split
      · split
        · split
          · exact lookupF_setF_isSome (lookupF_setF_isSome (lookupF_setF_isSome h))
          · exact lookupF_setF_isSome (lookupF_setF_isSome h)
        · exact lookupF_setF_isSome (lookupF_setF_isSome h)
      · exact h

theorem lookup_stepGeom_false_thick {src : Option (List Char)}
    {kLen kWid : String} {f : Fields} (h1 : ¬ thickKey = kLen)
    (h2 : ¬ thickKey = kWid) :
    lookupF (stepGeom src kLen kWid false f) thickKey = lookupF f thickKey := by
  cases src with
  | none => rfl
  | some s =>
    simp only [stepGeom]
    split
    · rfl
    · split
      · split
        · rename_i hc
          exact absurd hc.1 (by simp)
        · rw [lookupF_setF_ne _ _ h2, lookupF_setF_ne _ _ h1]
      · rfl

theorem get_layers_id_static_mem {s : List Char} {i : Int}
    (h : get_layers_id_static s = some i) : i ∈ LAYERS_DICT.map Prod.snd := by
  cases hr : runsP Char.isDigit s with
  | nil =>
    simp only [get_layers_id_static, hr] at h
    exact find_item_id_mem_snd h
  | cons n ns =>
    simp only [get_layers_id_static, hr] at h
    exact find_item_id_mem_snd h

/-!  ## C8: static dictionary round-trips -/

/-- C8: for every static dictionary category and every entry (text, id) in
it, resolving the entry's own text with `find_item_id` returns its id; in
particular the synonyms "FR4" and "FR-4" both resolve to 6281 in the
Materials dictionary. -/
theorem claim_C8_roundtrip :
    (∀ d ∈ ALL_STATIC_DICTS, ∀ p ∈ d, find_item_id p.1 d true = some p.2) ∧
    find_item_id (strN "FR4") MATERIALS_DICT true =
      find_item_id (strN "FR-4") MATERIALS_DICT true ∧
    find_item_id (strN "FR4") MATERIALS_DICT true = some 6281 := by
  refine ⟨by decide, by decide, by decide⟩

theorem claim_C8_roundtrip_witness :
    find_item_id (strN "FR4") MATERIALS_DICT true = some 6281 :=
  claim_C8_roundtrip.1 MATERIALS_DICT (by decide) (strN "FR4", 6281) (by decide)

/-!  ## C9: the normalizer -/

/-- C9 counterexample: the claim says all whitespace is removed entirely,
but `normalize_text` only removes the space character: an interior tab
survives, so the code differs from the specified normalizer on "a\tb". -/
theorem claim_C9_counterexample :
    normalize_text (strN "a\tb") = strN "a\tb" ∧
    spec_normalize (strN "a\tb") = strN "ab" ∧
    ¬ normalize_text (strN "a\tb") = spec_normalize (strN "a\tb") := by
  refine ⟨by decide, by decide, by decide⟩

/-- C9 amended: `normalize_text` lower-cases, strips leading/trailing
whitespace, and removes every space, hyphen and underscore (interior
non-space whitespace such as tabs is kept); empty input yields the empty
string; the function is pure and total. -/
theorem claim_C9_amended :
    (∀ t, normalize_text t =
      (pyLower (pyStrip t)).filter (fun c => ¬ (c = '-' ∨ c = '_' ∨ c = ' '))) ∧
    normalize_text [] = [] ∧
    (∀ t, ∀ c ∈ normalize_text t, ¬ (c = '-' ∨ c = '_' ∨ c = ' ')) := by
  have key : ∀ t, normalize_text t =
      (pyLower (pyStrip t)).filter (fun c => ¬ (c = '-' ∨ c = '_' ∨ c = ' ')) := by
    intro t
    rw [normalize_text]
    split
    · rename_i h
      rw [List.isEmpty_iff] at h
      subst h
      rfl
    · rw [List.filter_filter, List.filter_filter]
      refine List.filter_congr ?_
      intro c _
      simp only [decide_not]
      by_cases h1 : c = '-' <;> by_cases h2 : c = '_' <;> by_cases h3 : c = ' ' <;>
        simp [h1, h2, h3]
  refine ⟨key, rfl, ?_⟩
  intro t c hc
  rw [key t] at hc
  simpa using (List.mem_filter.mp hc).2

theorem claim_C9_amended_witness :
    normalize_text (strN " FR-4 ") =
      (pyLower (pyStrip (strN " FR-4 "))).filter
        (fun c => ¬ (c = '-' ∨ c = '_' ∨ c = ' ')) ∧
    ¬ ('-' ∈ normalize_text (strN " FR-4 ") ∨ '-' = '_' ∨ '-' = ' ') := by
  refine ⟨claim_C9_amended.1 (strN " FR-4 "), ?_⟩
  intro h
  rcases h with h | h | h
  · exact claim_C9_amended.2.2 (strN " FR-4 ") '-' h (Or.inl rfl)
  · cases h
  · cases h

/-!  ## C4: the layer-count variant -/

/-- C4 counterexample: the static layer-count variant does not strip all
non-digit characters; it takes only the first maximal digit run.  On "3 2"
the code resolves "3" (not found), while resolving the fully stripped text
"32" succeeds via the fuzzy substring test against the key "2". -/
theorem claim_C4_counterexample :
    get_layers_id_static (strN "3 2") = none ∧
    spec_layers_resolve (strN "3 2") = some 6014 ∧
    ¬ get_layers_id_static (strN "3 2") = spec_layers_resolve (strN "3 2") := by
  refine ⟨by decide, by decide, by decide⟩

/-- C4 amended: when the raw text contains exactly one maximal run of
digits (e.g. "6-layer"), the static path agrees with stripping all
non-digit characters before resolving; with several runs only the first is
used, and the DB-backed path applies no digit stripping at all (on rows
[(6014, "16")] it fails on "1x6" where the stripped text "16" succeeds). -/
theorem claim_C4_amended :
    (∀ s, (runsP Char.isDigit s).length = 1 →
      get_layers_id_static s = spec_layers_resolve s) ∧
    (db_find_item_id 900 [(6014, strN "16")] 54 (strN "1x6") 0 emptyDb).res
      = none ∧
    (db_find_item_id 900 [(6014, strN "16")] 54
      ((strN "1x6").filter Char.isDigit) 0 emptyDb).res = some 6014 := by
  refine ⟨?_, by decide, by decide⟩
  intro s h
  obtain ⟨n, hn⟩ := List.length_eq_one.mp h
  have hfil : s.filter Char.isDigit = n := by
    rw [← runsP_flatten Char.isDigit s, hn, List.flatten_cons, List.flatten_nil,
      List.append_nil]
  rw [get_layers_id_static, hn, spec_layers_resolve, hfil]

theorem claim_C4_amended_witness :
    (runsP Char.isDigit (strN "6-layer")).length = 1 ∧
    get_layers_id_static (strN "6-layer") = spec_layers_resolve (strN "6-layer") :=
  ⟨by decide, claim_C4_amended.1 (strN "6-layer") (by decide)⟩

/-!  ## C7: the dimension parser -/

/-- C7 counterexample: the code's token filter strips ALL decimal points
(`p.replace(".", "").isdigit()`), so "1.2.3" passes the filter; `float`
then raises and the surrounding `except` discards the whole parse.  The
claim's reference algorithm keeps only tokens numeric after stripping a
single decimal point, so it returns [100, 50] where the code returns []. -/
theorem claim_C7_counterexample :
    parse_dimensions (strN "100x50x1.2.3") = [] ∧
    spec_parse_dimensions (strN "100x50x1.2.3") = [100, 50] ∧
    ¬ parse_dimensions (strN "100x50x1.2.3")
        = spec_parse_dimensions (strN "100x50x1.2.3") := by
  refine ⟨by decide, by decide, by decide⟩

theorem pyFloat_of_keptTok {t : List Char} (h : keptTok t = true) :
    pyFloat t = if (t.count '.') ≤ 1 then some (parseDec t) else none := by
  simp only [keptTok, decide_eq_true_eq] at h
  obtain ⟨hne, hdig⟩ := h
  have hdall : (t.all fun c => c.isDigit || c = '.') = true := by
    rw [List.all_eq_true] at hdig ⊢
    intro c hc
    by_cases hd : c = '.'
    · simp [hd]
    · have hm : c ∈ t.filter (fun c => ¬ c = '.') :=
        List.mem_filter.mpr ⟨hc, by simp [hd]⟩
      simp [hdig _ hm]
  rw [List.all_eq_true] at hdig
  have hsign : ∀ c : Char, c.isDigit = false → ¬ c = '.' → ¬ t.head? = some c := by
    intro c hcd hdot hh
    have hmem : c ∈ t := by
      cases t with
      | nil => cases hh
      | cons a r =>
        have ha : a = c := by simpa using hh
        rw [← ha]
        exact List.mem_cons_self a r
    have hfm : c ∈ t.filter (fun x => ¬ x = '.') :=
      List.mem_filter.mpr ⟨hmem, by simpa using hdot⟩
    have hd := hdig _ hfm
    rw [hcd] at hd
    cases hd
  have hno : ¬ (t.head? = some '-' ∨ t.head? = some '+') := by
    intro hh
    rcases hh with hh | hh
    · exact hsign '-' (by decide) (by decide) hh
    · exact hsign '+' (by decide) (by decide) hh
  have hdig2 : (t.filter (fun c => ¬ c = '.')).all Char.isDigit = true :=
    List.all_eq_true.mpr hdig
  rw [pyFloat]
  simp only [if_neg hno, if_neg (fun hh => hno (Or.inl hh))]
  by_cases hcnt : (t.count '.') ≤ 1
  · rw [if_pos ⟨hcnt, hdall, hne⟩, if_pos hcnt]
  · rw [if_neg (fun hx => hcnt hx.1), if_neg hcnt]

theorem mapM_pyFloat {l : List (List Char)} (h : ∀ t ∈ l, keptTok t = true) :
    l.mapM pyFloat =
      if l.all (fun t => (t.count '.') ≤ 1) = true
      then some (l.map parseDec) else none := by
  induction l with
  | nil => rfl
  | cons t ts ih =>
    have ht := pyFloat_of_keptTok (h t (List.mem_cons_self t ts))
    have hts := ih (fun x hx => h x (List.mem_cons_of_mem _ hx))
    rw [List.mapM_cons, ht, hts]
    by_cases hc : (t.count '.') ≤ 1
    · by_cases hall : ts.all (fun t => (t.count '.') ≤ 1) = true
      · simp [hc, hall]
      · simp [hc, hall]
    · simp [hc]

/-- C7 amended: the code keeps exactly the tokens that are entirely numeric
after stripping ALL decimal points; when every kept token has at most one
decimal point the parse agrees with the claimed reference algorithm, and
when some kept token has two or more decimal points the float conversion
fails and the entire parse yields the empty sequence (the error never
escapes the mapper). -/
theorem claim_C7_amended :
    ∀ s,
      (((pySplit (dimReplace s)).filter keptTok).all
          (fun t => (t.count '.') ≤ 1) = true →
        parse_dimensions s = spec_parse_dimensions s) ∧
      (¬ ((pySplit (dimReplace s)).filter keptTok).all
          (fun t => (t.count '.') ≤ 1) = true →
        parse_dimensions s = []) := by
  intro s
  have hkept : ∀ t ∈ (pySplit (dimReplace s)).filter keptTok, keptTok t = true :=
    fun t ht => (List.mem_filter.mp ht).2
  have hm := mapM_pyFloat hkept
  constructor
  · intro hall
    have hfil : (pySplit (dimReplace s)).filter specDimTok
        = (pySplit (dimReplace s)).filter keptTok := by
      refine (List.filter_congr ?_).symm
      intro t ht
      by_cases hk : keptTok t = true
      · have hc : (t.count '.') ≤ 1 := by
          have hmem : t ∈ (pySplit (dimReplace s)).filter keptTok :=
            List.mem_filter.mpr ⟨ht, hk⟩
          simpa using List.all_eq_true.mp hall t hmem
        simp only [keptTok, specDimTok]
        rw [decide_eq_decide]
        tauto
      · simp only [keptTok, decide_eq_true_eq] at hk
        simp only [keptTok, specDimTok]
        rw [decide_eq_decide]
        tauto
    rw [parse_dimensions, hm, if_pos hall, spec_parse_dimensions, hfil]
  · intro hall
    rw [parse_dimensions, hm, if_neg hall]

theorem claim_C7_amended_witness :
    ((pySplit (dimReplace (strN "100x50x1.6"))).filter keptTok).all
        (fun t => (t.count '.') ≤ 1) = true ∧
    parse_dimensions (strN "100x50x1.6")
      = spec_parse_dimensions (strN "100x50x1.6") :=
  ⟨by decide, (claim_C7_amended (strN "100x50x1.6")).1 (by decide)⟩

/-!  ## C10: fuzzy matching accepts unlisted values -/

/-- C10: "3 OZ" equals no key of the copper-thickness table after
normalization, yet `find_item_id` resolves it to 6002 — the id of the
"0.5 OZ" entry, with which it shares the word "oz"; in general any input
sharing a whitespace-delimited word with some key of that table resolves to
that key's id, so successful resolution does not imply the input denotes a
listed value. -/
theorem claim_C10_fuzzy :
    (∀ p ∈ COPPER_THICKNESS_DICT,
      ¬ normalize_text (strN "3 OZ") = normalize_text p.1) ∧
    find_item_id (strN "3 OZ") COPPER_THICKNESS_DICT true = some 6002 ∧
    ((strN "0.5 OZ", (6002 : Int)) ∈ COPPER_THICKNESS_DICT ∧
      sharesWords (strN "3 OZ") (strN "0.5 OZ") = true) ∧
    (∀ t, (∃ p ∈ COPPER_THICKNESS_DICT, sharesWords t p.1 = true) →
      ∃ p ∈ COPPER_THICKNESS_DICT, sharesWords t p.1 = true ∧
        find_item_id t COPPER_THICKNESS_DICT true = some p.2) := by
  refine ⟨by decide, by decide, ⟨by decide, by decide⟩, ?_⟩
  intro t h
  obtain ⟨p, hp, hs⟩ := h
  refine ⟨p, hp, hs, ?_⟩
  have hall : ∀ q ∈ COPPER_THICKNESS_DICT, q.2 = (6002 : Int) := by decide
  have hp2 : p.2 = (6002 : Int) := hall p hp
  have hne : ¬ t = [] := by
    intro he
    rw [he] at hs
    have hz : sharesWords [] p.1 = false := rfl
    rw [hz] at hs
    cases hs
  rw [find_item_id, if_neg (by simpa [List.isEmpty_iff] using hne)]
  cases hex : exactPass (normalize_text t) COPPER_THICKNESS_DICT with
  | some i =>
    obtain ⟨k, hk⟩ := exactPass_mem hex
    have hi : i = (6002 : Int) := hall (k, i) hk
    rw [hi, hp2]
  | none =>
    simp only [if_pos rfl]
    have hsome : (fuzzyPass (pyStrip (pyLower t)) COPPER_THICKNESS_DICT).isSome :=
      fuzzyPass_isSome ⟨p, hp, hs⟩
    obtain ⟨i, hi⟩ := Option.isSome_iff_exists.mp hsome
    obtain ⟨k, hk⟩ := fuzzyPass_mem hi
    have hi6 : i = (6002 : Int) := hall (k, i) hk
    simp [hi, hi6, hp2]

theorem claim_C10_fuzzy_witness :
    ∃ p ∈ COPPER_THICKNESS_DICT, sharesWords (strN "3 OZ") p.1 = true ∧
      find_item_id (strN "3 OZ") COPPER_THICKNESS_DICT true = some p.2 :=
  claim_C10_fuzzy.2.2.2 (strN "3 OZ")
    ⟨(strN "0.5 OZ", 6002), by decide, by decide⟩

/-!  ## C1: the DB cache and its not-found entries -/

/-- C1 evaluated on the code: with rows [(6281, "FR4")] and TTL 900, a
lookup of "unobtainium" at time 0 fetches, returns None and caches the
not-found outcome with expiry 900; yet a second lookup at time 10 (inside
the TTL window) fetches AGAIN, because `_get_cached` returns the cached
None indistinguishably from a cache miss.  Successful lookups do behave as
claimed: "FR-4" at time 0 fetches, at time 10 is served from cache with no
fetch, and at time 1000 (past expiry) fetches anew. -/
theorem claim_C1_code_eval :
    ((db_find_item_id 900 [(6281, strN "FR4")] 56 (strN "unobtainium") 0
        emptyDb).res = none ∧
     (db_find_item_id 900 [(6281, strN "FR4")] 56 (strN "unobtainium") 0
        emptyDb).fetched = true ∧
     (db_find_item_id 900 [(6281, strN "FR4")] 56 (strN "unobtainium") 0
        emptyDb).st =
       { cache := [((56, normalize_text (strN "unobtainium")), (900, none))] } ∧
     (db_find_item_id 900 [(6281, strN "FR4")] 56 (strN "unobtainium") 10
        (db_find_item_id 900 [(6281, strN "FR4")] 56 (strN "unobtainium") 0
          emptyDb).st).fetched = true) ∧
    ((db_find_item_id 900 [(6281, strN "FR4")] 56 (strN "FR-4") 0
        emptyDb).fetched = true ∧
     db_find_item_id 900 [(6281, strN "FR4")] 56 (strN "FR-4") 10
        (db_find_item_id 900 [(6281, strN "FR4")] 56 (strN "FR-4") 0 emptyDb).st
       = ⟨some 6281,
          (db_find_item_id 900 [(6281, strN "FR4")] 56 (strN "FR-4") 0
            emptyDb).st, false⟩ ∧
     (db_find_item_id 900 [(6281, strN "FR4")] 56 (strN "FR-4") 1000
        (db_find_item_id 900 [(6281, strN "FR4")] 56 (strN "FR-4") 0
          emptyDb).st).fetched = true) := by
  refine ⟨⟨by decide, by decide, by decide, by decide⟩,
    by decide, by decide, by decide⟩

/-!  ## C3: backend selection and error propagation -/

/-- C3: `_try_get_db` yields no backend exactly when the DB mode is
disabled, the connection URL is blank, or backend construction failed; with
no backend every entry point returns its static resolution; with a backend
the static resolver is never consulted (the result does not depend on it);
and when the backend's fetch fails with a connectivity error — with the
normalized text nonempty and not validly cached — the entry point
propagates that error rather than returning a result.  Every public
`get_*_id` function is `dictEntry` applied to its category id and static
table. -/
theorem claim_C3_routing :
    (∀ u e s, try_get_db u e s = none ↔
      (pyStrip (u.getD (strN "1")) = strN "0" ∨
        pyStrip (e.getD []) = [] ∨ s = none)) ∧
    (∀ ib (sr : List Char → Option Int) t now st,
      dictEntry ib sr none t now st = .ok (sr t, st)) ∧
    (∀ ib (sr sr' : List Char → Option Int) ctx t now st,
      dictEntry ib sr (some ctx) t now st
        = dictEntry ib sr' (some ctx) t now st) ∧
    (∀ ib (sr : List Char → Option Int) ctx t now st e,
      ctx.fetch ib = Except.error e →
      ¬ normalize_text t = [] →
      cacheGet st (ib, normalize_text t) = none →
      dictEntry ib sr (some ctx) t now st = .error e) := by
  refine ⟨?_, ?_, ?_, ?_⟩
  · intro u e s
    rw [try_get_db]
    split
    · rename_i h
      simp [h]
    · rename_i h
      split
      · rename_i h2
        simp [h, h2]
      · rename_i h2
        cases s <;> simp [h, h2]
  · intro ib sr t now st
    rfl
  · intro ib sr sr' ctx t now st
    rfl
  · intro ib sr ctx t now st e hf hnv hcg
    simp [dictEntry, db_find_item_idE, getCached, hcg, hnv, hf]

/-!  ## C2: mandatory fields of the mapper output -/

/-- Any key the mapper never writes is absent from its output, whatever the
record and resolvers. -/
theorem lookup_map_unwritten (R : Resolvers) (r : PCBData) {k : String}
    (h1 : ¬ k = nameKey) (h2 : ¬ k = descKey) (h3 : ¬ k = revKey)
    (h4 : ¬ k = thickKey) (h5 : ¬ k = matKey) (h6 : ¬ k = layersKey)
    (h7 : ¬ k = finishKey) (h8 : ¬ k = copperKey) (h9 : ¬ k = lenKey)
    (h10 : ¬ k = widKey) (h11 : ¬ k = panelLenKey) (h12 : ¬ k = panelWidKey)
    (h13 : ¬ k = edgeKey) :
    lookupF (map_pcb_to_bitrix24_fields R r) k = none := by
  simp only [map_pcb_to_bitrix24_fields]
  rw [lookup_condResolve_ne h13, lookup_stepGeom_ne h11 h12 h4,
    lookup_stepGeom_ne h9 h10 h4, lookup_condResolve_ne h8,
    lookup_condResolve_ne h7, lookup_condResolve_ne h6,
    lookup_condResolve_ne h5, lookupF_setF_ne _ _ h4, lookupF_setF_ne _ _ h3,
    lookup_stepDesc_ne h2, lookup_stepName_ne h1]
  rfl

/-- C2 counterexample: on the record with every attribute absent, the
mapper's output contains only the description, revision and thickness keys;
the mandatory name key (OEM PN) is missing, refuting "all mandatory field
keys are always present". -/
theorem claim_C2_counterexample :
    lookupF (map_pcb_to_bitrix24_fields staticResolvers emptyPCB) nameKey
      = none ∧
    map_pcb_to_bitrix24_fields staticResolvers emptyPCB =
      [(descKey, .s (strN "PCB")), (revKey, .s []),
       (thickKey, .q ⟨16, 10⟩)] := by
  refine ⟨by decide, by decide⟩

/-- C2 amended: for every record and resolver backend, the description,
revision and board-thickness keys are always present (via defaults); the
name key is present exactly when `board_name` is a non-empty string; and
the remote schema's other mandatory dictionary keys — order unit
(ufCrm24_1707838030), PCB type (ufCrm24_1707838074), peelable mask
(ufCrm24_1707839629) and production unit (ufCrm24_1707849863) — are never
emitted at all. -/
theorem claim_C2_amended :
    ∀ (R : Resolvers) (r : PCBData),
      (lookupF (map_pcb_to_bitrix24_fields R r) descKey).isSome = true ∧
      (lookupF (map_pcb_to_bitrix24_fields R r) revKey).isSome = true ∧
      (lookupF (map_pcb_to_bitrix24_fields R r) thickKey).isSome = true ∧
      (lookupF (map_pcb_to_bitrix24_fields R r) nameKey).isSome
        = truthy r.board_name ∧
      lookupF (map_pcb_to_bitrix24_fields R r) "ufCrm24_1707838030" = none ∧
      lookupF (map_pcb_to_bitrix24_fields R r) "ufCrm24_1707838074" = none ∧
      lookupF (map_pcb_to_bitrix24_fields R r) "ufCrm24_1707839629" = none ∧
      lookupF (map_pcb_to_bitrix24_fields R r) "ufCrm24_1707849863" = none := by
  intro R r
  refine ⟨?_, ?_, ?_, ?_, ?_, ?_, ?_, ?_⟩
  · simp only [map_pcb_to_bitrix24_fields]
    apply lookup_condResolve_isSome
    apply lookup_stepGeom_isSome
    apply lookup_stepGeom_isSome
    apply lookup_condResolve_isSome
    apply lookup_condResolve_isSome
    apply lookup_condResolve_isSome
    apply lookup_condResolve_isSome
    apply lookupF_setF_isSome
    apply lookupF_setF_isSome
    exact lookup_stepDesc_self r _
  · simp only [map_pcb_to_bitrix24_fields]
    apply lookup_condResolve_isSome
    apply lookup_stepGeom_isSome
    apply lookup_stepGeom_isSome
    apply lookup_condResolve_isSome
    apply lookup_condResolve_isSome
    apply lookup_condResolve_isSome
    apply lookup_condResolve_isSome
    apply lookupF_setF_isSome
    rw [lookupF_setF_self]
    rfl
  · simp only [map_pcb_to_bitrix24_fields]
    apply lookup_condResolve_isSome
    apply lookup_stepGeom_isSome
    apply lookup_stepGeom_isSome
    apply lookup_condResolve_isSome
    apply lookup_condResolve_isSome
    apply lookup_condResolve_isSome
    apply lookup_condResolve_isSome
    rw [lookupF_setF_self]
    rfl
  · simp only [map_pcb_to_bitrix24_fields]
    rw [lookup_condResolve_ne (by decide),
      lookup_stepGeom_ne (by decide) (by decide) (by decide),
      lookup_stepGeom_ne (by decide) (by decide) (by decide),
      lookup_condResolve_ne (by decide), lookup_condResolve_ne (by decide),
      lookup_condResolve_ne (by decide), lookup_condResolve_ne (by decide),
      lookupF_setF_ne _ _ (by decide), lookupF_setF_ne _ _ (by decide),
      lookup_stepDesc_ne (by decide)]
    exact lookup_stepName_nil r
  · exact lookup_map_unwritten R r (by decide) (by decide) (by decide)
      (by decide) (by decide) (by decide) (by decide) (by decide) (by decide)
      (by decide) (by decide) (by decide) (by decide)
  · exact lookup_map_unwritten R r (by decide) (by decide) (by decide)
      (by decide) (by decide) (by decide) (by decide) (by decide) (by decide)
      (by decide) (by decide) (by decide) (by decide)
  · exact lookup_map_unwritten R r (by decide) (by decide) (by decide)
      (by decide) (by decide) (by decide) (by decide) (by decide) (by decide)
      (by decide) (by decide) (by decide) (by decide)
  · exact lookup_map_unwritten R r (by decide) (by decide) (by decide)
      (by decide) (by decide) (by decide) (by decide) (by decide) (by decide)
      (by decide) (by decide) (by decide) (by decide)

/-!  ## C5: category keys only ever hold dictionary ids -/

/-- C5: in the static configuration, whenever a category-typed output key
(material, layer count, finish type, copper thickness, edge plating) is
present in the mapper output, its value is an integer item id drawn from
the corresponding dictionary's ids — never the raw input text. -/
theorem claim_C5_category_ids :
    ∀ (r : PCBData) (v : BVal),
      (lookupF (map_pcb_to_bitrix24_fields staticResolvers r) matKey = some v →
        ∃ i, v = BVal.i i ∧ i ∈ MATERIALS_DICT.map Prod.snd) ∧
      (lookupF (map_pcb_to_bitrix24_fields staticResolvers r) layersKey = some v →
        ∃ i, v = BVal.i i ∧ i ∈ LAYERS_DICT.map Prod.snd) ∧
      (lookupF (map_pcb_to_bitrix24_fields staticResolvers r) finishKey = some v →
        ∃ i, v = BVal.i i ∧ i ∈ FINISH_TYPE_DICT.map Prod.snd) ∧
      (lookupF (map_pcb_to_bitrix24_fields staticResolvers r) copperKey = some v →
        ∃ i, v = BVal.i i ∧ i ∈ COPPER_THICKNESS_DICT.map Prod.snd) ∧
      (lookupF (map_pcb_to_bitrix24_fields staticResolvers r) edgeKey = some v →
        ∃ i, v = BVal.i i ∧ i ∈ EDGE_PLATING_DICT.map Prod.snd) := by
  intro r v
  refine ⟨?_, ?_, ?_, ?_, ?_⟩
  · intro h
    simp only [map_pcb_to_bitrix24_fields] at h
    rw [lookup_condResolve_ne (by decide),
      lookup_stepGeom_ne (by decide) (by decide) (by decide),
      lookup_stepGeom_ne (by decide) (by decide) (by decide),
      lookup_condResolve_ne (by decide), lookup_condResolve_ne (by decide),
      lookup_condResolve_ne (by decide)] at h
    rcases lookup_condResolve_self h with ⟨s, i, hres, hv⟩ | hrest
    · have hfi : find_item_id s MATERIALS_DICT true = some i := hres
      exact ⟨i, hv, find_item_id_mem_snd hfi⟩
    · rw [lookupF_setF_ne _ _ (by decide), lookupF_setF_ne _ _ (by decide),
        lookup_stepDesc_ne (by decide), lookup_stepName_ne (by decide)] at hrest
      cases hrest
  · intro h
    simp only [map_pcb_to_bitrix24_fields] at h
    rw [lookup_condResolve_ne (by decide),
      lookup_stepGeom_ne (by decide) (by decide) (by decide),
      lookup_stepGeom_ne (by decide) (by decide) (by decide),
      lookup_condResolve_ne (by decide), lookup_condResolve_ne (by decide)] at h
    rcases lookup_condResolve_self h with ⟨s, i, hres, hv⟩ | hrest
    · have hfi : get_layers_id_static s = some i := hres
      exact ⟨i, hv, get_layers_id_static_mem hfi⟩
    · rw [lookup_condResolve_ne (by decide), lookupF_setF_ne _ _ (by decide),
        lookupF_setF_ne _ _ (by decide), lookup_stepDesc_ne (by decide),
        lookup_stepName_ne (by decide)] at hrest
      cases hrest
  · intro h
    simp only [map_pcb_to_bitrix24_fields] at h
    rw [lookup_condResolve_ne (by decide),
      lookup_stepGeom_ne (by decide) (by decide) (by decide),
      lookup_stepGeom_ne (by decide) (by decide) (by decide),
      lookup_condResolve_ne (by decide)] at h
    rcases lookup_condResolve_self h with ⟨s, i, hres, hv⟩ | hrest
    · have hfi : find_item_id s FINISH_TYPE_DICT true = some i := hres
      exact ⟨i, hv, find_item_id_mem_snd hfi⟩
    · rw [lookup_condResolve_ne (by decide), lookup_condResolve_ne (by decide),
        lookupF_setF_ne _ _ (by decide), lookupF_setF_ne _ _ (by decide),
        lookup_stepDesc_ne (by decide), lookup_stepName_ne (by decide)] at hrest
      cases hrest
  · intro h
    simp only [map_pcb_to_bitrix24_fields] at h
    rw [lookup_condResolve_ne (by decide),
      lookup_stepGeom_ne (by decide) (by decide) (by decide),
      lookup_stepGeom_ne (by decide) (by decide) (by decide)] at h
    rcases lookup_condResolve_self h with ⟨s, i, hres, hv⟩ | hrest
    · have hfi : find_item_id s COPPER_THICKNESS_DICT true = some i := hres
      exact ⟨i, hv, find_item_id_mem_snd hfi⟩
    · rw [lookup_condResolve_ne (by decide), lookup_condResolve_ne (by decide),
        lookup_condResolve_ne (by decide), lookupF_setF_ne _ _ (by decide),
        lookupF_setF_ne _ _ (by decide), lookup_stepDesc_ne (by decide),
        lookup_stepName_ne (by decide)] at hrest
      cases hrest
  · intro h
    simp only [map_pcb_to_bitrix24_fields] at h
    rcases lookup_condResolve_self h with ⟨s, i, hres, hv⟩ | hrest
    · have hfi : find_item_id s EDGE_PLATING_DICT true = some i := hres
      exact ⟨i, hv, find_item_id_mem_snd hfi⟩
    · rw [lookup_stepGeom_ne (by decide) (by decide) (by decide),
        lookup_stepGeom_ne (by decide) (by decide) (by decide),
        lookup_condResolve_ne (by decide), lookup_condResolve_ne (by decide),
        lookup_condResolve_ne (by decide), lookup_condResolve_ne (by decide),
        lookupF_setF_ne _ _ (by decide), lookupF_setF_ne _ _ (by decide),
        lookup_stepDesc_ne (by decide), lookup_stepName_ne (by decide)] at hrest
      cases hrest

theorem claim_C5_category_ids_witness :
    ∃ i, BVal.i 6281 = BVal.i i ∧ i ∈ MATERIALS_DICT.map Prod.snd :=
  (claim_C5_category_ids
    { emptyPCB with base_material := some (strN "FR4") } (BVal.i 6281)).1
    (by decide)

/-!  ## C6: board thickness default and plausible override -/

/-- C6: the board-thickness field defaults to 1.6 (= 16/10) whenever no
board-size text is present; a third parsed dimension of 15.0 (outside the
0.1-10 plausibility range) leaves the default in place, while 2.0 and 1.6
override it (the `leF` conjuncts record that the stored fraction 20/10 is
the value 2). -/
theorem claim_C6_thickness :
    (∀ (R : Resolvers) (r : PCBData), r.board_size = none →
      lookupF (map_pcb_to_bitrix24_fields R r) thickKey = some (.q ⟨16, 10⟩)) ∧
    lookupF (map_pcb_to_bitrix24_fields staticResolvers
      { emptyPCB with board_size := some (strN "100x50x15.0") }) thickKey
      = some (.q ⟨16, 10⟩) ∧
    lookupF (map_pcb_to_bitrix24_fields staticResolvers
      { emptyPCB with board_size := some (strN "100x50x2.0") }) thickKey
      = some (.q ⟨20, 10⟩) ∧
    leF ⟨20, 10⟩ 2 = true ∧ leF 2 ⟨20, 10⟩ = true ∧
    lookupF (map_pcb_to_bitrix24_fields staticResolvers
      { emptyPCB with board_size := some (strN "100x50x1.6") }) thickKey
      = some (.q ⟨16, 10⟩) := by
  refine ⟨?_, by decide, by decide, by decide, by decide, by decide⟩
  intro R r hbs
  simp only [map_pcb_to_bitrix24_fields]
  rw [hbs]
  rw [lookup_condResolve_ne (by decide),
    lookup_stepGeom_false_thick (by decide) (by decide), stepGeom_none,
    lookup_condResolve_ne (by decide), lookup_condResolve_ne (by decide),
    lookup_condResolve_ne (by decide), lookup_condResolve_ne (by decide),
    lookupF_setF_self]
  simp [prepass, hbs]

theorem claim_C6_thickness_witness :
    lookupF (map_pcb_to_bitrix24_fields staticResolvers emptyPCB) thickKey
      = some (.q ⟨16, 10⟩) :=
  claim_C6_thickness.1 staticResolvers emptyPCB rfl

theorem claim_C3_routing_witness :
    dictEntry 56 (fun x => find_item_id x MATERIALS_DICT true)
      (some { ttl := 900, fetch := fun _ => Except.error "connection refused" })
      (strN "FR4") 0 emptyDb = Except.error "connection refused" :=
  claim_C3_routing.2.2.2 56 (fun x => find_item_id x MATERIALS_DICT true)
    { ttl := 900, fetch := fun _ => Except.error "connection refused" }
    (strN "FR4") 0 emptyDb "connection refused" rfl (by decide) rfl

end PCB
